import Mathlib

/-!
Shallow embedding of `dowhy/gcm/stochastic_models.py`.

Sample arrays are modelled as lists of rows of rationals.  External
collaborators (scipy fitting/sampling, the KL divergence estimator, numpy
random choice, sklearn KMeans + silhouette scoring, the Bayesian Gaussian
mixture fitter, and the `shape_into_2d` utility from `dowhy.gcm.util.general`)
are modelled as oracle fields of an `Env` structure: the module under
verification only calls them as black boxes.  A raised Python exception is
modelled as an `Except.error` (or, for oracles whose exceptions the module
catches, an `Option`/`Except` result from the oracle).  KMeans fitting and
silhouette scoring are collapsed into one `clusterScore` oracle because the
source wraps both in a single `try` and treats a `ValueError` from either
identically.  `np.inf` (the initial best divergence) is modelled as `⊤` in
`WithTop ℚ`; `int(np.sqrt(rows / 2))` is modelled as `Nat.sqrt (rows / 2)`,
which agrees with the floor of the real square root of `rows / 2` because no
perfect square lies strictly between `n` and `n + 1/2`.
-/

/-- Rows of numeric data: a 2D numpy array. -/
abbrev Samples := List (List ℚ)

/-- A scipy distribution object as the module sees it: a unique `name` and the
`shapes` attribute (a comma-separated string of shape parameter names, or
`None`). -/
structure Family where
  name : String
  shapes : Option String
deriving DecidableEq

/-- The Python exceptions the module raises or propagates. -/
inductive PyError where
  | valueError (msg : String) : PyError
  | runtimeError (msg : String) : PyError
  | indexError : PyError
deriving DecidableEq

/-- The external collaborators, as oracles.  `fitDist f X = none` models
`f.fit(X)` raising a `ValueError`; `clusterScore X k = Except.error ()` models
`KMeans(n_clusters=k).fit(X)` or `silhouette_score` raising a `ValueError`.
`bgmFit` returns an opaque handle (a `Nat`) to a fitted mixture, consumed by
`gmmSample`.  `continuous` and `discrete` are the two module-level catalogs
`_CONTINUOUS_DISTRIBUTIONS` / `_DISCRETE_DISTRIBUTIONS` in iteration order
(the Python dicts are keyed by name, values iterated in insertion order). -/
structure Env where
  continuous : List Family
  discrete : List Family
  shape_into_2d : Samples → Samples
  fitDist : Family → Samples → Option (List ℚ)
  rvsPos : Family → Nat → List ℚ → Samples
  rvsNamed : Family → Nat → List (String × ℚ) → Samples
  klDivergence : Samples → Samples → ℚ
  randChoice : Nat → Nat → List Nat
  clusterScore : Samples → Nat → Except Unit ℚ
  bgmFit : Nat → Nat → Samples → Nat
  gmmSample : Nat → Nat → Samples

/-- `scipy.stats.norm`: name `"norm"`, no shape parameters. -/
def normFamily : Family := { name := "norm", shapes := none }

/-- `[name.strip() for name in scipy_distribution.shapes.split(',')]` guarded
by Python truthiness of `shapes` (both `None` and `""` give `[]`). -/
def declaredShapeNames (f : Family) : List String :=
  match f.shapes with
  | none => []
  | some s => if s = "" then [] else (s.splitOn ",").map String.trim

/-- `d[key] = v` on a Python dict modelled as an ordered association list:
replace in place when the key exists, append otherwise. -/
def pyDictInsert (d : List (String × ℚ)) (key : String) (v : ℚ) : List (String × ℚ) :=
  if d.any (fun p => p.1 = key) then d.map (fun p => if p.1 = key then (key, v) else p)
  else d ++ [(key, v)]

/-- The loop `for i, parameter_name in enumerate(parameter_list):
parameters_dictionary[parameter_name] = parameters[i]`.  Consuming the value
list positionally is indexing by `i`; exhausting it models the `IndexError`
Python raises on a too-short tuple. -/
def buildDictGo (acc : List (String × ℚ)) : List String → List ℚ → Except PyError (List (String × ℚ))
  | [], _ => Except.ok acc
  | _ :: _, [] => Except.error PyError.indexError
  | n :: ns, v :: vs => buildDictGo (pyDictInsert acc n v) ns vs

/-- The trailing parameter names appended after the shape names: `['loc']` for
a discrete family, `['loc', 'scale']` for a continuous one (the source checks
the discrete catalog first). -/
def trailingNames (env : Env) (f : Family) : List String :=
  if f.name ∈ env.discrete.map Family.name then ["loc"] else ["loc", "scale"]

/-- `ScipyDistribution.map_scipy_distribution_parameters_to_names`. -/
def ScipyDistribution.map_scipy_distribution_parameters_to_names
    (env : Env) (scipy_distribution : Family) (parameters : List ℚ) :
    Except PyError (List (String × ℚ)) :=
  if scipy_distribution.name ∈ env.discrete.map Family.name then
    buildDictGo [] (declaredShapeNames scipy_distribution ++ ["loc"]) parameters
  else if scipy_distribution.name ∈ env.continuous.map Family.name then
    buildDictGo [] (declaredShapeNames scipy_distribution ++ ["loc", "scale"]) parameters
  else
    Except.error (PyError.valueError
      ("Distribution " ++ scipy_distribution.name ++
        " not found in the list of continuous and discrete distributions!"))

/-- The divergence computed for one candidate family inside
`find_suitable_continuous_distribution`: split the fitted parameter tuple into
`arg = params[:-2]`, `loc = params[-2]`, `scale = params[-1]`, draw
`distribution.rvs(size=X.shape[0], loc=loc, scale=scale, *arg)` and estimate
the KL divergence against the data. -/
def famDiv (env : Env) (X : Samples) (f : Family) (params : List ℚ) : ℚ :=
  env.klDivergence X
    (env.rvsPos f X.length
      (params.take (params.length - 2) ++
        [params.getD (params.length - 2) 0, params.getD (params.length - 1) 0]))

/-- The `for distribution in _CONTINUOUS_DISTRIBUTIONS.values():` loop of
`find_suitable_continuous_distribution`, carrying
(`currently_best_distribution`, `currently_best_parameters`,
`currently_smallest_divergence`).  A `ValueError` from `fit` is caught and the
family skipped; accessing `params[-2]` on a tuple of fewer than two entries
raises an uncaught `IndexError`.  Divergence strictly below the threshold
accepts the family and breaks; otherwise a strictly smaller divergence than
the best seen updates the running best. -/
def findSuitableLoop (env : Env) (X : Samples) (thr : ℚ) :
    List Family → Family → List ℚ → WithTop ℚ → Except PyError (Family × List ℚ)
  | [], bestF, bestP, _ => Except.ok (bestF, bestP)
  | f :: rest, bestF, bestP, bestDiv =>
    match env.fitDist f X with
    | none => findSuitableLoop env X thr rest bestF bestP bestDiv
    | some params =>
      if params.length < 2 then Except.error PyError.indexError
      else
        let divergence := famDiv env X f params
        if divergence < thr then Except.ok (f, params)
        else if (divergence : WithTop ℚ) < bestDiv then
          findSuitableLoop env X thr rest f params (divergence : WithTop ℚ)
        else findSuitableLoop env X thr rest bestF bestP bestDiv

/-- The families on which the loop calls `.fit`, in order: every family
reached before the loop ends (by exhaustion, by the early-exit break, or by an
uncaught `IndexError`).  Control flow depends only on the running best
divergence, so only that component of the state is threaded. -/
def findSuitableTrace (env : Env) (X : Samples) (thr : ℚ) :
    List Family → WithTop ℚ → List Family
  | [], _ => []
  | f :: rest, bestDiv =>
    match env.fitDist f X with
    | none => f :: findSuitableTrace env X thr rest bestDiv
    | some params =>
      if params.length < 2 then [f]
      else
        let divergence := famDiv env X f params
        if divergence < thr then [f]
        else if (divergence : WithTop ℚ) < bestDiv then
          f :: findSuitableTrace env X thr rest (divergence : WithTop ℚ)
        else f :: findSuitableTrace env X thr rest bestDiv

/-- `ScipyDistribution.find_suitable_continuous_distribution`: reshape the
data, run the loop from the initial best (`norm`, `(0.0, 1.0)`, `np.inf`),
then map the winning raw parameter tuple to names. -/
def ScipyDistribution.find_suitable_continuous_distribution
    (env : Env) (distribution_samples : Samples) (divergence_threshold : ℚ) :
    Except PyError (Family × List (String × ℚ)) :=
  match findSuitableLoop env (env.shape_into_2d distribution_samples) divergence_threshold
      env.continuous normFamily [0, 1] ⊤ with
  | Except.error e => Except.error e
  | Except.ok (bestF, bestP) =>
    match ScipyDistribution.map_scipy_distribution_parameters_to_names env bestF bestP with
    | Except.error e => Except.error e
    | Except.ok named => Except.ok (bestF, named)

/-- The mutable state of a `ScipyDistribution` instance. -/
structure ScipyDistribution where
  distribution : Option Family
  parameters : List (String × ℚ)
  fixedParameters : Bool
deriving DecidableEq

/-- `__init__`: `self.__fixed_parameters = len(parameters) > 0`. -/
def ScipyDistribution.init (scipy_distribution : Option Family)
    (parameters : List (String × ℚ)) : ScipyDistribution :=
  { distribution := scipy_distribution
    parameters := parameters
    fixedParameters := decide (0 < parameters.length) }

/-- The `ValueError` raised by `ScipyDistribution.draw_samples` when unfit. -/
def scipyNotFittedError : PyError :=
  PyError.valueError "Cannot draw samples. Model has not been fit!"

/-- `ScipyDistribution.draw_samples`: raises when
`len(self.__parameters) == 0 or self.__distribution is None`, else samples
`rvs(size=num_samples, **self.parameters)` reshaped into 2D. -/
def ScipyDistribution.draw_samples (env : Env) (m : ScipyDistribution)
    (num_samples : Nat) : Except PyError Samples :=
  match m.distribution with
  | none => Except.error scipyNotFittedError
  | some d =>
    if m.parameters.length = 0 then Except.error scipyNotFittedError
    else Except.ok (env.shape_into_2d (env.rvsNamed d num_samples m.parameters))

/-- `ScipyDistribution.clone`: keep the family; keep the current parameters
exactly when `self.__fixed_parameters` is set. -/
def ScipyDistribution.clone (m : ScipyDistribution) : ScipyDistribution :=
  if m.fixedParameters then ScipyDistribution.init m.distribution m.parameters
  else ScipyDistribution.init m.distribution []

/-- `ScipyDistribution.fit`: with no family, auto-select via
`find_suitable_continuous_distribution` (threshold `10 ** -2`) and adopt its
result; with a family but no fixed parameters, re-estimate and map to names;
with fixed parameters, do nothing. -/
def ScipyDistribution.fit (env : Env) (m : ScipyDistribution) (X : Samples) :
    Except PyError ScipyDistribution :=
  match m.distribution with
  | none =>
    match ScipyDistribution.find_suitable_continuous_distribution env X (mkRat 1 100) with
    | Except.error e => Except.error e
    | Except.ok (best_model, best_parameters) =>
      Except.ok { m with distribution := some best_model, parameters := best_parameters }
  | some d =>
    if m.fixedParameters then Except.ok m
    else
      match env.fitDist d (env.shape_into_2d X) with
      | none => Except.error (PyError.valueError "scipy distribution fit raised")
      | some raw =>
        match ScipyDistribution.map_scipy_distribution_parameters_to_names env d raw with
        | Except.error e => Except.error e
        | Except.ok named => Except.ok { m with parameters := named }

/-- The state of an `EmpiricalDistribution` instance. -/
structure EmpiricalDistribution where
  data : Option Samples
deriving DecidableEq

/-- `EmpiricalDistribution.__init__`. -/
def EmpiricalDistribution.init : EmpiricalDistribution := { data := none }

/-- The `RuntimeError` raised by `EmpiricalDistribution.draw_samples`. -/
def empiricalNotFittedError : PyError :=
  PyError.runtimeError "EmpiricalDistribution has not been fitted!"

/-- `EmpiricalDistribution.fit`: store the reshaped data. -/
def EmpiricalDistribution.fit (env : Env) (_m : EmpiricalDistribution)
    (X : Samples) : EmpiricalDistribution :=
  { data := some (env.shape_into_2d X) }

/-- `EmpiricalDistribution.draw_samples`: resample stored rows at the indices
chosen by `np.random.choice(rows, size=num_samples, replace=True)`. -/
def EmpiricalDistribution.draw_samples (env : Env) (m : EmpiricalDistribution)
    (num_samples : Nat) : Except PyError Samples :=
  match m.data with
  | none => Except.error empiricalNotFittedError
  | some d => Except.ok ((env.randChoice d.length num_samples).map (fun i => d.getD i []))

/-- `EmpiricalDistribution.clone`: a fresh empty instance. -/
def EmpiricalDistribution.clone (_m : EmpiricalDistribution) : EmpiricalDistribution :=
  { data := none }

/-- `range(2, int(np.sqrt(X.shape[0] / 2)))` as a list. -/
def candidateRange (rows : Nat) : List Nat :=
  List.range' 2 (Nat.sqrt (rows / 2) - 2)

/-- The candidate loop of `__get_optimal_number_of_components`, carrying
(`current_best`, `current_best_num_components`, `num_best_in_succession`).
`current_best` starts at `0`; a score strictly above it updates the best and
resets the stagnation counter, otherwise the counter is incremented and the
loop breaks once it reaches 3.  A `ValueError` from clustering or scoring
aborts the search, returning the best count so far. -/
def mixLoop (score : Nat → Except Unit ℚ) : List Nat → ℚ → Nat → Nat → Nat
  | [], _, bestNum, _ => bestNum
  | i :: rest, best, bestNum, succ =>
    match score i with
    | Except.error _ => bestNum
    | Except.ok c =>
      if best < c then mixLoop score rest c i 0
      else if 3 ≤ succ + 1 then bestNum
      else mixLoop score rest best bestNum (succ + 1)

/-- The candidates the loop successfully scores, in order (the control state
that determines them is the running best score and the stagnation counter). -/
def mixEvaluated (score : Nat → Except Unit ℚ) : List Nat → ℚ → Nat → List Nat
  | [], _, _ => []
  | i :: rest, best, succ =>
    match score i with
    | Except.error _ => []
    | Except.ok c =>
      if best < c then i :: mixEvaluated score rest c 0
      else if 3 ≤ succ + 1 then [i]
      else i :: mixEvaluated score rest best (succ + 1)

/-- `BayesianGaussianMixtureDistribution.__get_optimal_number_of_components`:
run the candidate loop over `range(2, int(np.sqrt(rows / 2)))` starting from
best score 0, best count 1, stagnation counter 0. -/
def getOptimalNumberOfComponents (score : Samples → Nat → Except Unit ℚ)
    (X : Samples) : Nat :=
  mixLoop (score X) (candidateRange X.length) 0 1 0

/-- The state of a `BayesianGaussianMixtureDistribution` instance; the fitted
mixture is an opaque handle produced by the `bgmFit` oracle. -/
structure BayesianGaussianMixtureDistribution where
  gmm_model : Option Nat
deriving DecidableEq

/-- `BayesianGaussianMixtureDistribution.__init__`. -/
def BayesianGaussianMixtureDistribution.init : BayesianGaussianMixtureDistribution :=
  { gmm_model := none }

/-- The `RuntimeError` raised by
`BayesianGaussianMixtureDistribution.draw_samples`. -/
def bgmNotFittedError : PyError :=
  PyError.runtimeError "BayesianGaussianMixtureDistribution has not been fitted!"

/-- `BayesianGaussianMixtureDistribution.fit`: select the component count,
then fit a `BayesianGaussianMixture(n_components=..., max_iter=1000)`. -/
def BayesianGaussianMixtureDistribution.fit (env : Env)
    (_m : BayesianGaussianMixtureDistribution) (X : Samples) :
    BayesianGaussianMixtureDistribution :=
  let X2 := env.shape_into_2d X
  { gmm_model := some (env.bgmFit (getOptimalNumberOfComponents env.clusterScore X2) 1000 X2) }

/-- `BayesianGaussianMixtureDistribution.draw_samples`. -/
def BayesianGaussianMixtureDistribution.draw_samples (env : Env)
    (m : BayesianGaussianMixtureDistribution) (num_samples : Nat) :
    Except PyError Samples :=
  match m.gmm_model with
  | none => Except.error bgmNotFittedError
  | some g => Except.ok (env.shape_into_2d (env.gmmSample g num_samples))

/-- `BayesianGaussianMixtureDistribution.clone`: a fresh unfitted instance. -/
def BayesianGaussianMixtureDistribution.clone
    (_m : BayesianGaussianMixtureDistribution) : BayesianGaussianMixtureDistribution :=
  { gmm_model := none }

/-- `scipy.stats.uniform`: no shape parameters. -/
def uniformFamily : Family := { name := "uniform", shapes := none }

/-- `scipy.stats.gamma`: one shape parameter named `a`. -/
def gammaFamily : Family := { name := "gamma", shapes := some "a" }

/-- The score a candidate received, read back from the oracle (0 for a
candidate whose clustering failed; only used on successfully scored ones). -/
def scoreValue (score : Nat → Except Unit ℚ) (i : Nat) : ℚ :=
  match score i with
  | Except.ok c => c
  | Except.error _ => 0

/-- A concrete environment: one catalog family (`norm`), every fit returning
the tuple `(3, 2)`, divergence constantly 0. -/
def envA : Env :=
  { continuous := [normFamily]
    discrete := []
    shape_into_2d := id
    fitDist := fun _ _ => some [3, 2]
    rvsPos := fun _ _ ps => [ps]
    rvsNamed := fun _ n _ => List.replicate n [0]
    klDivergence := fun _ _ => 0
    randChoice := fun _ n => List.replicate n 0
    clusterScore := fun _ _ => Except.ok 0
    bgmFit := fun _ _ _ => 0
    gmmSample := fun _ n => List.replicate n [0] }

/-- Like `envA` but with a second catalog family after `norm`. -/
def envC : Env :=
  { envA with continuous := [normFamily, uniformFamily] }

/-- A concrete environment where both catalog families fit but neither beats
the divergence threshold: `norm` scores divergence 5, `uniform` scores 7. -/
def envB : Env :=
  { envA with
    continuous := [normFamily, uniformFamily]
    fitDist := fun f _ => if f.name = "norm" then some [3, 2] else some [4, 5]
    klDivergence := fun _ g => if g = [[3, 2]] then 5 else 7 }

/-- A concrete environment where every fit raises a `ValueError`. -/
def envD : Env :=
  { envA with fitDist := fun _ _ => none }

/-- A concrete environment whose continuous catalog holds a family with one
declared shape parameter. -/
def envE : Env :=
  { envA with continuous := [gammaFamily] }

/-- `scipy.stats.poisson`: a discrete family (its one shape parameter is not
needed for the witnesses, so it is left undeclared). -/
def poissonFamily : Family := { name := "poisson", shapes := none }

/-- A concrete environment with one discrete and one continuous family. -/
def envF : Env :=
  { envA with continuous := [normFamily], discrete := [poissonFamily] }

/-- `Nat.sqrt 9 = 3`, needed to evaluate the candidate range on 18 rows. -/
theorem nat_sqrt_nine : Nat.sqrt 9 = 3 := by
  have h1 : 3 ≤ Nat.sqrt 9 := Nat.le_sqrt.mpr (by norm_num)
  have h2 : Nat.sqrt 9 < 4 := Nat.sqrt_lt.mpr (by norm_num)
  omega

/-- `Nat.sqrt 2 = 1`, needed to show the candidate range is empty on few rows. -/
theorem nat_sqrt_two : Nat.sqrt 2 = 1 := by
  have h1 : 1 ≤ Nat.sqrt 2 := Nat.le_sqrt.mpr (by norm_num)
  have h2 : Nat.sqrt 2 < 2 := Nat.sqrt_lt.mpr (by norm_num)
  omega

/-- On 18 rows the candidate component counts are `range(2, 3) = [2]`. -/
theorem candidateRange_eighteen : candidateRange 18 = [2] := by
  unfold candidateRange
  norm_num [nat_sqrt_nine]

/-- C1 counterexample: a freshly constructed `ScipyDistribution` pinned to the
`norm` family with explicit parameters `loc=0, scale=1`, with `fit` never
called, draws samples successfully (`len(parameters) > 0` and a family is
present, so the not-fitted guard does not fire), refuting that `draw_samples`
before `fit` always raises the not-fitted error for every variant. -/
theorem draw_samples_unfit_fixed_parameters_succeeds :
    ScipyDistribution.draw_samples envA
      (ScipyDistribution.init (some normFamily) [("loc", 0), ("scale", 1)]) 3
      = Except.ok [[0], [0], [0]] := rfl

/-- C1 (amended): `draw_samples` before `fit` raises the not-fitted error on
every freshly constructed `EmpiricalDistribution` and
`BayesianGaussianMixtureDistribution`, and on a freshly constructed
`ScipyDistribution` whenever it was given no parameters or no family at
construction. -/
theorem draw_samples_before_fit_raises (env : Env) (n : Nat)
    (d : Option Family) (ps : List (String × ℚ)) :
    (ps = [] ∨ d = none →
      ScipyDistribution.draw_samples env (ScipyDistribution.init d ps) n
        = Except.error scipyNotFittedError)
    ∧ EmpiricalDistribution.draw_samples env EmpiricalDistribution.init n
        = Except.error empiricalNotFittedError
    ∧ BayesianGaussianMixtureDistribution.draw_samples env
        BayesianGaussianMixtureDistribution.init n
        = Except.error bgmNotFittedError := by
  refine ⟨?_, rfl, rfl⟩
  rintro (h | h)
  · subst h
    cases d with
    | none => rfl
    | some f => rfl
  · subst h
    rfl

/-- Witness for the amended C1 theorem at concrete inputs. -/
theorem draw_samples_before_fit_raises_witness :
    (([] : List (String × ℚ)) = [] ∨ (some normFamily : Option Family) = none)
    ∧ ScipyDistribution.draw_samples envA
        (ScipyDistribution.init (some normFamily) []) 3
        = Except.error scipyNotFittedError
    ∧ EmpiricalDistribution.draw_samples envA EmpiricalDistribution.init 3
        = Except.error empiricalNotFittedError
    ∧ BayesianGaussianMixtureDistribution.draw_samples envA
        BayesianGaussianMixtureDistribution.init 3
        = Except.error bgmNotFittedError :=
  ⟨Or.inl rfl,
    (draw_samples_before_fit_raises envA 3 (some normFamily) []).1 (Or.inl rfl),
    (draw_samples_before_fit_raises envA 3 (some normFamily) []).2.1,
    (draw_samples_before_fit_raises envA 3 (some normFamily) []).2.2⟩

/-- C2 counterexample: a `ScipyDistribution` constructed with explicit
parameters (`loc=5`) but no family is fitted; `fit` auto-selects a family and
overwrites the parameters with the fitted ones (`loc=3, scale=2`), and because
the fixed-parameters flag is set, `clone` carries those fitted parameters
over: `draw_samples` on the clone succeeds before the clone was ever fitted. -/
theorem clone_carries_parameters_after_fit :
    ScipyDistribution.fit envA (ScipyDistribution.init none [("loc", 5)]) [[1]]
      = Except.ok { distribution := some normFamily
                    parameters := [("loc", 3), ("scale", 2)]
                    fixedParameters := true }
    ∧ ScipyDistribution.clone
        { distribution := some normFamily
          parameters := [("loc", 3), ("scale", 2)]
          fixedParameters := true }
        = { distribution := some normFamily
            parameters := [("loc", 3), ("scale", 2)]
            fixedParameters := true }
    ∧ ScipyDistribution.draw_samples envA
        (ScipyDistribution.clone
          { distribution := some normFamily
            parameters := [("loc", 3), ("scale", 2)]
            fixedParameters := true }) 2
        = Except.ok [[0], [0]] :=
  ⟨rfl, rfl, rfl⟩

/-- C2 (amended): a clone never carries fitted state when the model was
constructed without explicit parameters: for any `ScipyDistribution` whose
fixed-parameters flag is unset (the flag is set exactly by construction-time
parameters and is preserved by `fit`), `draw_samples` on its clone raises the
not-fitted error; clones of `EmpiricalDistribution` and
`BayesianGaussianMixtureDistribution` models always raise it. -/
theorem clone_of_unfixed_model_is_unfitted (env : Env) (n : Nat)
    (m : ScipyDistribution) (X : Samples)
    (e : EmpiricalDistribution) (b : BayesianGaussianMixtureDistribution) :
    (m.fixedParameters = false →
      ScipyDistribution.draw_samples env (ScipyDistribution.clone m) n
        = Except.error scipyNotFittedError)
    ∧ (∀ r, ScipyDistribution.fit env m X = Except.ok r →
        r.fixedParameters = m.fixedParameters)
    ∧ EmpiricalDistribution.draw_samples env (EmpiricalDistribution.clone e) n
        = Except.error empiricalNotFittedError
    ∧ BayesianGaussianMixtureDistribution.draw_samples env
        (BayesianGaussianMixtureDistribution.clone b) n
        = Except.error bgmNotFittedError := by
  refine ⟨?_, ?_, rfl, rfl⟩
  · intro h
    unfold ScipyDistribution.clone
    rw [h]
    simp only [Bool.false_eq_true, if_false]
    cases hd : m.distribution with
    | none => rfl
    | some f => rfl
  · intro r hr
    unfold ScipyDistribution.fit at hr
    split at hr
    · split at hr
      · cases hr
      · injection hr with h
        subst h
        rfl
    · split at hr
      · injection hr with h
        subst h
        rfl
      · split at hr
        · cases hr
        · split at hr
          · cases hr
          · injection hr with h
            subst h
            rfl

/-- Witness for the amended C2 theorem: clones of a fitted-but-not-fixed
`ScipyDistribution`, a fitted `EmpiricalDistribution` and a fitted
`BayesianGaussianMixtureDistribution` all raise on `draw_samples`. -/
theorem clone_of_unfixed_model_is_unfitted_witness :
    ((ScipyDistribution.init (some normFamily) []).fixedParameters = false →
      ScipyDistribution.draw_samples envA
        (ScipyDistribution.clone (ScipyDistribution.init (some normFamily) [])) 2
        = Except.error scipyNotFittedError)
    ∧ (∀ r, ScipyDistribution.fit envA (ScipyDistribution.init (some normFamily) []) [[1]]
          = Except.ok r →
        r.fixedParameters = (ScipyDistribution.init (some normFamily) []).fixedParameters)
    ∧ EmpiricalDistribution.draw_samples envA
        (EmpiricalDistribution.clone
          (EmpiricalDistribution.fit envA EmpiricalDistribution.init [[1]])) 2
        = Except.error empiricalNotFittedError
    ∧ BayesianGaussianMixtureDistribution.draw_samples envA
        (BayesianGaussianMixtureDistribution.clone
          (BayesianGaussianMixtureDistribution.fit envA
            BayesianGaussianMixtureDistribution.init [[1]])) 2
        = Except.error bgmNotFittedError :=
  clone_of_unfixed_model_is_unfitted envA 2 (ScipyDistribution.init (some normFamily) []) [[1]]
    (EmpiricalDistribution.fit envA EmpiricalDistribution.init [[1]])
    (BayesianGaussianMixtureDistribution.fit envA
      BayesianGaussianMixtureDistribution.init [[1]])

/-- C3 counterexample: a `ScipyDistribution` constructed with the explicit
parameter `loc=5` but no family does not keep its family or parameters across
`fit`: `fit` auto-selects `norm` and replaces the parameter set with the
fitted `loc=3, scale=2`, so `fit` is not a no-op for this instance. -/
theorem fit_replaces_parameters_without_family :
    (ScipyDistribution.init none [("loc", 5)]).distribution = none
    ∧ (ScipyDistribution.init none [("loc", 5)]).parameters = [("loc", 5)]
    ∧ ScipyDistribution.fit envA (ScipyDistribution.init none [("loc", 5)]) [[1]]
        = Except.ok { distribution := some normFamily
                      parameters := [("loc", 3), ("scale", 2)]
                      fixedParameters := true } :=
  ⟨rfl, rfl, rfl⟩

/-- C3 (amended): for every `ScipyDistribution` constructed with a
distribution family and explicit parameters, `fit` is a no-op: it leaves the
family and the parameter set unchanged. -/
theorem fit_noop_with_family_and_fixed_parameters (env : Env) (X : Samples)
    (f : Family) (ps : List (String × ℚ)) (hps : ps ≠ []) :
    ScipyDistribution.fit env (ScipyDistribution.init (some f) ps) X
      = Except.ok (ScipyDistribution.init (some f) ps) := by
  have h : (ScipyDistribution.init (some f) ps).fixedParameters = true := by
    simp [ScipyDistribution.init, List.length_pos, hps]
  unfold ScipyDistribution.fit
  simp only [h]
  rfl

/-- Witness for the amended C3 theorem at concrete inputs. -/
theorem fit_noop_with_family_and_fixed_parameters_witness :
    ([("loc", 5), ("scale", 2)] : List (String × ℚ)) ≠ []
    ∧ ScipyDistribution.fit envA
        (ScipyDistribution.init (some normFamily) [("loc", 5), ("scale", 2)]) [[1]]
        = Except.ok (ScipyDistribution.init (some normFamily) [("loc", 5), ("scale", 2)]) :=
  ⟨by simp,
    fit_noop_with_family_and_fixed_parameters envA [[1]] normFamily
      [("loc", 5), ("scale", 2)] (by simp)⟩

/-- C10: a `ScipyDistribution` constructed with explicit parameters but no
family raises the not-fitted error on `draw_samples` before `fit`, even
though its parameter set is non-empty (the guard also checks the family). -/
theorem draw_samples_parameters_without_family_raises (env : Env)
    (ps : List (String × ℚ)) (n : Nat) (_hps : 0 < ps.length) :
    ScipyDistribution.draw_samples env (ScipyDistribution.init none ps) n
      = Except.error scipyNotFittedError := rfl

/-- Witness for the C10 theorem at concrete inputs. -/
theorem draw_samples_parameters_without_family_raises_witness :
    0 < ([("loc", 5)] : List (String × ℚ)).length
    ∧ ScipyDistribution.draw_samples envA
        (ScipyDistribution.init none [("loc", 5)]) 3
        = Except.error scipyNotFittedError :=
  ⟨by decide, draw_samples_parameters_without_family_raises envA [("loc", 5)] 3 (by decide)⟩

/-- C7: the component-count selector returns 1 whenever the candidate range
`range(2, int(sqrt(rows / 2)))` is empty, and in particular on any input with
fewer than 5 rows. -/
theorem select_component_count_empty_range (score : Samples → Nat → Except Unit ℚ)
    (X : Samples) :
    (candidateRange X.length = [] → getOptimalNumberOfComponents score X = 1)
    ∧ (X.length < 5 → getOptimalNumberOfComponents score X = 1) := by
  have key : ∀ h : candidateRange X.length = [],
      getOptimalNumberOfComponents score X = 1 := by
    intro h
    unfold getOptimalNumberOfComponents
    rw [h]
    rfl
  refine ⟨key, ?_⟩
  intro h
  apply key
  unfold candidateRange
  have h2 : X.length / 2 ≤ 2 := by omega
  have h3 : Nat.sqrt (X.length / 2) ≤ Nat.sqrt 2 := Nat.sqrt_le_sqrt h2
  have h5 : Nat.sqrt (X.length / 2) - 2 = 0 := by
    rw [nat_sqrt_two] at h3
    omega
  rw [h5]
  rfl

/-- Witness for the C7 theorem: four rows give an empty candidate range and
component count 1. -/
theorem select_component_count_empty_range_witness :
    ([[0], [0], [0], [0]] : Samples).length < 5
    ∧ getOptimalNumberOfComponents (fun _ _ => Except.ok 0) [[0], [0], [0], [0]] = 1 :=
  ⟨by decide,
    (select_component_count_empty_range (fun _ _ => Except.ok 0) [[0], [0], [0], [0]]).2
      (by decide)⟩

/-- A failing candidate ends the loop with the best count so far: the run over
`pre ++ k :: rest` equals the run over `pre` alone when scoring `k` raises. -/
theorem mixLoop_error_absorbed (score : Nat → Except Unit ℚ) (k : Nat)
    (rest : List Nat) (herr : score k = Except.error ()) :
    ∀ (pre : List Nat) (best : ℚ) (bestNum succ : Nat),
      mixLoop score (pre ++ k :: rest) best bestNum succ
        = mixLoop score pre best bestNum succ := by
  intro pre
  induction pre with
  | nil =>
    intro best bestNum succ
    simp [mixLoop, herr]
  | cons i pre ih =>
    intro best bestNum succ
    simp only [List.cons_append, mixLoop]
    cases h : score i with
    | error e => rfl
    | ok c =>
      by_cases hc : best < c
      · simp [hc, ih]
      · by_cases hs : 3 ≤ succ + 1
        · simp [hc, hs]
        · simp [hc, hs, ih]

/-- C9: when scoring candidate `k` raises the structural `ValueError`, the
selector returns the best component count accumulated over the earlier
candidates `pre` (the selector itself is a total function into `Nat`: the
failure is absorbed, never propagated), and 1 when no candidate was
evaluated before the failure. -/
theorem select_component_count_failure_returns_best
    (score : Samples → Nat → Except Unit ℚ) (X : Samples)
    (pre rest : List Nat) (k : Nat)
    (hcat : candidateRange X.length = pre ++ k :: rest)
    (herr : score X k = Except.error ()) :
    getOptimalNumberOfComponents score X = mixLoop (score X) pre 0 1 0
    ∧ (pre = [] → getOptimalNumberOfComponents score X = 1) := by
  have h := mixLoop_error_absorbed (score X) k rest herr pre 0 1 0
  constructor
  · unfold getOptimalNumberOfComponents
    rw [hcat]
    exact h
  · intro hp
    subst hp
    unfold getOptimalNumberOfComponents
    rw [hcat]
    simpa [mixLoop] using h

/-- Witness for the C9 theorem: on 18 rows the only candidate is 2; its
clustering fails, and the selector returns the default 1. -/
theorem select_component_count_failure_returns_best_witness :
    candidateRange (List.replicate 18 ([0] : List ℚ)).length = [] ++ 2 :: []
    ∧ (fun (_ : Samples) (_ : Nat) => (Except.error () : Except Unit ℚ))
        (List.replicate 18 [0]) 2 = Except.error ()
    ∧ getOptimalNumberOfComponents (fun _ _ => Except.error ())
        (List.replicate 18 [0]) = 1 :=
  ⟨by simp [candidateRange_eighteen], rfl,
    (select_component_count_failure_returns_best (fun _ _ => Except.error ())
      (List.replicate 18 [0]) [] [] 2 (by simp [candidateRange_eighteen]) rfl).2 rfl⟩

/-- C8 counterexample: on 18 rows the only candidate count is 2; its
silhouette-style score is the legal value −1, which does not exceed the
initial best of 0, so the selector returns 1 — not the (unique) evaluated
candidate with the best score among those evaluated. -/
theorem select_component_count_negative_score_counterexample :
    getOptimalNumberOfComponents (fun _ _ => Except.ok (-1 : ℚ))
      (List.replicate 18 [0]) = 1
    ∧ candidateRange (List.replicate 18 ([0] : List ℚ)).length = [2]
    ∧ mixEvaluated (fun _ => Except.ok (-1 : ℚ)) (candidateRange 18) 0 0 = [2]
    ∧ (1 : Nat) ∉ candidateRange (List.replicate 18 ([0] : List ℚ)).length := by
  refine ⟨?_, by simp [candidateRange_eighteen], ?_, by simp [candidateRange_eighteen]⟩
  · unfold getOptimalNumberOfComponents
    have h : candidateRange (List.replicate 18 ([0] : List ℚ)).length = [2] := by
      simp [candidateRange_eighteen]
    rw [h]
    rfl
  · rw [candidateRange_eighteen]
    rfl

/-- The selector loop, on candidates that all score successfully, either
returns its incoming best count with every evaluated score at most the
incoming best score, or returns an evaluated candidate that strictly beats the
incoming best and is the first to attain the maximum evaluated score: the
evaluated trace splits around the result, with every earlier candidate scoring
strictly below it and every later one at most it (only a strict improvement
updates `current_best`, so ties keep the earlier candidate). -/
theorem mixLoop_dichotomy (score : Nat → Except Unit ℚ) :
    ∀ (cs : List Nat) (best : ℚ) (bestNum succ : Nat),
      (∀ i ∈ cs, (score i).isOk = true) →
      (mixLoop score cs best bestNum succ = bestNum
        ∧ ∀ i ∈ mixEvaluated score cs best succ, scoreValue score i ≤ best)
      ∨ (∃ pre post,
          mixEvaluated score cs best succ
            = pre ++ mixLoop score cs best bestNum succ :: post
          ∧ best < scoreValue score (mixLoop score cs best bestNum succ)
          ∧ (∀ i ∈ pre,
              scoreValue score i < scoreValue score (mixLoop score cs best bestNum succ))
          ∧ (∀ i ∈ post,
              scoreValue score i ≤ scoreValue score (mixLoop score cs best bestNum succ))) := by
  intro cs
  induction cs with
  | nil =>
    intro best bestNum succ hok
    left
    exact ⟨rfl, by simp [mixEvaluated]⟩
  | cons i rest ih =>
    intro best bestNum succ hok
    have hoki : (score i).isOk = true := hok i (List.mem_cons_self i rest)
    cases h : score i with
    | error e => rw [h] at hoki; simp [Except.isOk, Except.toBool] at hoki
    | ok c =>
      have hrest : ∀ j ∈ rest, (score j).isOk = true := by
        intro j hj
        exact hok j (List.mem_cons_of_mem i hj)
      have hvi : scoreValue score i = c := by
        unfold scoreValue
        rw [h]
      by_cases hc : best < c
      · have hred : mixLoop score (i :: rest) best bestNum succ
            = mixLoop score rest c i 0 := by
          simp [mixLoop, h, hc]
        have hev : mixEvaluated score (i :: rest) best succ
            = i :: mixEvaluated score rest c 0 := by
          simp [mixEvaluated, h, hc]
        rcases ih c i 0 hrest with ⟨hL, hB⟩ | ⟨pre1, post1, hevd, hGt, hPre, hPost⟩
        · right
          refine ⟨[], mixEvaluated score rest c 0, ?_, ?_, ?_, ?_⟩
          · rw [hred, hev, hL]
            rfl
          · rw [hred, hL, hvi]
            exact hc
          · intro j hj
            exact absurd hj (List.not_mem_nil j)
          · intro j hj
            rw [hred, hL, hvi]
            exact hB j hj
        · right
          refine ⟨i :: pre1, post1, ?_, ?_, ?_, ?_⟩
          · rw [hred, hev, hevd]
            rfl
          · rw [hred]
            exact lt_trans hc hGt
          · intro j hj
            rcases List.mem_cons.mp hj with hj | hj
            · subst hj
              rw [hred, hvi]
              exact hGt
            · rw [hred]
              exact hPre j hj
          · intro j hj
            rw [hred]
            exact hPost j hj
      · by_cases hs : 3 ≤ succ + 1
        · left
          have hred : mixLoop score (i :: rest) best bestNum succ = bestNum := by
            simp [mixLoop, h, hc, hs]
          have hev : mixEvaluated score (i :: rest) best succ = [i] := by
            simp [mixEvaluated, h, hc, hs]
          rw [hred, hev]
          refine ⟨rfl, ?_⟩
          intro j hj
          rcases List.mem_singleton.mp hj with hj
          subst hj
          rw [hvi]
          exact le_of_not_lt hc
        · have hred : mixLoop score (i :: rest) best bestNum succ
              = mixLoop score rest best bestNum (succ + 1) := by
            simp [mixLoop, h, hc, hs]
          have hev : mixEvaluated score (i :: rest) best succ
              = i :: mixEvaluated score rest best (succ + 1) := by
            simp [mixEvaluated, h, hc, hs]
          rcases ih best bestNum (succ + 1) hrest
            with ⟨hL, hB⟩ | ⟨pre1, post1, hevd, hGt, hPre, hPost⟩
          · left
            rw [hred, hev, hL]
            refine ⟨rfl, ?_⟩
            intro j hj
            rcases List.mem_cons.mp hj with hj | hj
            · subst hj
              rw [hvi]
              exact le_of_not_lt hc
            · exact hB j hj
          · right
            refine ⟨i :: pre1, post1, ?_, ?_, ?_, ?_⟩
            · rw [hred, hev, hevd]
              rfl
            · rw [hred]
              exact hGt
            · intro j hj
              rcases List.mem_cons.mp hj with hj | hj
              · subst hj
                rw [hred, hvi]
                exact lt_of_le_of_lt (le_of_not_lt hc) hGt
              · rw [hred]
                exact hPre j hj
            · intro j hj
              rw [hred]
              exact hPost j hj

/-- C8 (amended): when every clustering step succeeds, the selector returns
the first evaluated candidate count whose score equals the maximum score among
the evaluated candidates, provided that maximum exceeds the initial best of 0:
the evaluated-candidate trace splits as `pre ++ result :: post` with every
candidate in `pre` scoring strictly below the result (so no earlier candidate
attains the maximum) and every candidate in `post` scoring at most the result.
If no evaluated candidate scores above 0 (silhouette scores may be negative),
it returns the default count 1 instead of a best-scoring candidate. -/
theorem select_component_count_best_score (score : Samples → Nat → Except Unit ℚ)
    (X : Samples)
    (hok : ∀ i ∈ candidateRange X.length, (score X i).isOk = true) :
    (getOptimalNumberOfComponents score X = 1
      ∧ ∀ i ∈ mixEvaluated (score X) (candidateRange X.length) 0 0,
          scoreValue (score X) i ≤ 0)
    ∨ (∃ pre post,
        mixEvaluated (score X) (candidateRange X.length) 0 0
          = pre ++ getOptimalNumberOfComponents score X :: post
        ∧ 0 < scoreValue (score X) (getOptimalNumberOfComponents score X)
        ∧ (∀ i ∈ pre, scoreValue (score X) i
            < scoreValue (score X) (getOptimalNumberOfComponents score X))
        ∧ (∀ i ∈ post, scoreValue (score X) i
            ≤ scoreValue (score X) (getOptimalNumberOfComponents score X))) := by
  unfold getOptimalNumberOfComponents
  exact mixLoop_dichotomy (score X) (candidateRange X.length) 0 1 0 hok

/-- Witness for the amended C8 theorem at concrete inputs (18 rows, every
candidate scoring 1). -/
theorem select_component_count_best_score_witness :
    (∀ i ∈ candidateRange (List.replicate 18 ([0] : List ℚ)).length,
      ((fun (_ : Samples) (_ : Nat) => (Except.ok (1 : ℚ) : Except Unit ℚ))
        (List.replicate 18 [0]) i).isOk = true)
    ∧ ((getOptimalNumberOfComponents
          (fun _ _ => (Except.ok (1 : ℚ) : Except Unit ℚ)) (List.replicate 18 [0]) = 1
        ∧ ∀ i ∈ mixEvaluated (fun _ => (Except.ok (1 : ℚ) : Except Unit ℚ))
              (candidateRange (List.replicate 18 ([0] : List ℚ)).length) 0 0,
            scoreValue (fun _ => (Except.ok (1 : ℚ) : Except Unit ℚ)) i ≤ 0)
      ∨ (∃ pre post,
          mixEvaluated (fun _ => (Except.ok (1 : ℚ) : Except Unit ℚ))
              (candidateRange (List.replicate 18 ([0] : List ℚ)).length) 0 0
            = pre ++ getOptimalNumberOfComponents
                (fun _ _ => (Except.ok (1 : ℚ) : Except Unit ℚ))
                (List.replicate 18 [0]) :: post
          ∧ 0 < scoreValue (fun _ => (Except.ok (1 : ℚ) : Except Unit ℚ))
              (getOptimalNumberOfComponents
                (fun _ _ => (Except.ok (1 : ℚ) : Except Unit ℚ)) (List.replicate 18 [0]))
          ∧ (∀ i ∈ pre, scoreValue (fun _ => (Except.ok (1 : ℚ) : Except Unit ℚ)) i
              < scoreValue (fun _ => (Except.ok (1 : ℚ) : Except Unit ℚ))
                  (getOptimalNumberOfComponents
                    (fun _ _ => (Except.ok (1 : ℚ) : Except Unit ℚ))
                    (List.replicate 18 [0])))
          ∧ (∀ i ∈ post, scoreValue (fun _ => (Except.ok (1 : ℚ) : Except Unit ℚ)) i
              ≤ scoreValue (fun _ => (Except.ok (1 : ℚ) : Except Unit ℚ))
                  (getOptimalNumberOfComponents
                    (fun _ _ => (Except.ok (1 : ℚ) : Except Unit ℚ))
                    (List.replicate 18 [0]))))) :=
  ⟨fun _ _ => rfl,
    select_component_count_best_score
      (fun _ _ => (Except.ok (1 : ℚ) : Except Unit ℚ))
      (List.replicate 18 [0]) (fun _ _ => rfl)⟩

/-- Once a family fits with divergence strictly below the threshold and every
family before it fits with at-least-threshold divergence (or fails to fit),
the loop accepts that family on the spot, whatever the incoming best state. -/
theorem findSuitableLoop_early_exit (env : Env) (X : Samples) (thr : ℚ)
    (f₀ : Family) (ps₀ : List ℚ) (rest : List Family)
    (hfit : env.fitDist f₀ X = some ps₀) (hlen : 2 ≤ ps₀.length)
    (hdiv : famDiv env X f₀ ps₀ < thr) :
    ∀ (pre : List Family),
      (∀ f ∈ pre, ∀ ps, env.fitDist f X = some ps →
        2 ≤ ps.length ∧ thr ≤ famDiv env X f ps) →
      ∀ (bF : Family) (bP : List ℚ) (bD : WithTop ℚ),
        findSuitableLoop env X thr (pre ++ f₀ :: rest) bF bP bD
          = Except.ok (f₀, ps₀) := by
  intro pre
  induction pre with
  | nil =>
    intro _ bF bP bD
    simp only [List.nil_append, findSuitableLoop]
    rw [hfit]
    simp only [Nat.not_lt.mpr hlen, if_false]
    rw [if_pos hdiv]
  | cons g pre ih =>
    intro hpre bF bP bD
    have hpre2 : ∀ f ∈ pre, ∀ ps, env.fitDist f X = some ps →
        2 ≤ ps.length ∧ thr ≤ famDiv env X f ps :=
      fun f hf => hpre f (List.mem_cons_of_mem g hf)
    simp only [List.cons_append, findSuitableLoop]
    cases hgfit : env.fitDist g X with
    | none => exact ih hpre2 bF bP bD
    | some ps =>
      obtain ⟨hl, hd⟩ := hpre g (List.mem_cons_self g pre) ps hgfit
      simp only [Nat.not_lt.mpr hl, if_false]
      rw [if_neg (not_lt.mpr hd)]
      by_cases hcase : (famDiv env X g ps : WithTop ℚ) < bD
      · rw [if_pos hcase]
        exact ih hpre2 g ps (famDiv env X g ps : WithTop ℚ)
      · rw [if_neg hcase]
        exact ih hpre2 bF bP bD

/-- The fit-call trace of the loop under the same conditions: exactly the
skipped-or-rejected families before the accepted one, then the accepted
family; nothing after it is ever fitted. -/
theorem findSuitableTrace_early_exit (env : Env) (X : Samples) (thr : ℚ)
    (f₀ : Family) (ps₀ : List ℚ) (rest : List Family)
    (hfit : env.fitDist f₀ X = some ps₀) (hlen : 2 ≤ ps₀.length)
    (hdiv : famDiv env X f₀ ps₀ < thr) :
    ∀ (pre : List Family),
      (∀ f ∈ pre, ∀ ps, env.fitDist f X = some ps →
        2 ≤ ps.length ∧ thr ≤ famDiv env X f ps) →
      ∀ (bD : WithTop ℚ),
        findSuitableTrace env X thr (pre ++ f₀ :: rest) bD = pre ++ [f₀] := by
  intro pre
  induction pre with
  | nil =>
    intro _ bD
    simp only [List.nil_append, findSuitableTrace]
    rw [hfit]
    simp only [Nat.not_lt.mpr hlen, if_false]
    rw [if_pos hdiv]
  | cons g pre ih =>
    intro hpre bD
    have hpre2 : ∀ f ∈ pre, ∀ ps, env.fitDist f X = some ps →
        2 ≤ ps.length ∧ thr ≤ famDiv env X f ps :=
      fun f hf => hpre f (List.mem_cons_of_mem g hf)
    simp only [List.cons_append, findSuitableTrace]
    cases hgfit : env.fitDist g X with
    | none => exact congrArg (List.cons g) (ih hpre2 bD)
    | some ps =>
      obtain ⟨hl, hd⟩ := hpre g (List.mem_cons_self g pre) ps hgfit
      simp only [Nat.not_lt.mpr hl, if_false]
      rw [if_neg (not_lt.mpr hd)]
      by_cases hcase : (famDiv env X g ps : WithTop ℚ) < bD
      · rw [if_pos hcase]
        exact congrArg (List.cons g) (ih hpre2 (famDiv env X g ps : WithTop ℚ))
      · rw [if_neg hcase]
        exact congrArg (List.cons g) (ih hpre2 bD)

/-- C4: the first catalog family in iteration order whose fit succeeds and
whose estimated divergence is strictly below the threshold is accepted and
returned immediately (paired with its parameters mapped to names), and the
fit-call trace stops at that family: no later catalog family is fitted or
evaluated, whatever follows it in the catalog. -/
theorem find_suitable_early_exit (env : Env) (X : Samples) (thr : ℚ)
    (pre rest : List Family) (f₀ : Family) (ps₀ : List ℚ)
    (hcat : env.continuous = pre ++ f₀ :: rest)
    (hpre : ∀ f ∈ pre, ∀ ps, env.fitDist f (env.shape_into_2d X) = some ps →
      2 ≤ ps.length ∧ thr ≤ famDiv env (env.shape_into_2d X) f ps)
    (hfit : env.fitDist f₀ (env.shape_into_2d X) = some ps₀)
    (hlen : 2 ≤ ps₀.length)
    (hdiv : famDiv env (env.shape_into_2d X) f₀ ps₀ < thr) :
    ScipyDistribution.find_suitable_continuous_distribution env X thr
      = Except.map (fun nm => (f₀, nm))
          (ScipyDistribution.map_scipy_distribution_parameters_to_names env f₀ ps₀)
    ∧ ∀ rest2 : List Family,
        findSuitableTrace env (env.shape_into_2d X) thr (pre ++ f₀ :: rest2) ⊤
          = pre ++ [f₀] := by
  constructor
  · unfold ScipyDistribution.find_suitable_continuous_distribution
    rw [hcat, findSuitableLoop_early_exit env (env.shape_into_2d X) thr f₀ ps₀ rest
      hfit hlen hdiv pre hpre normFamily [0, 1] ⊤]
    dsimp only
    cases ScipyDistribution.map_scipy_distribution_parameters_to_names env f₀ ps₀ with
    | error e => rfl
    | ok named => rfl
  · intro rest2
    exact findSuitableTrace_early_exit env (env.shape_into_2d X) thr f₀ ps₀ rest2
      hfit hlen hdiv pre hpre ⊤

/-- Witness for the C4 theorem: in a two-family catalog where `norm` fits
first with divergence 0 below the threshold, the search accepts `norm` and
never fits the second family. -/
theorem find_suitable_early_exit_witness :
    envC.continuous = [] ++ normFamily :: [uniformFamily]
    ∧ ScipyDistribution.find_suitable_continuous_distribution envC [[1]] (mkRat 1 100)
        = Except.map (fun nm => (normFamily, nm))
            (ScipyDistribution.map_scipy_distribution_parameters_to_names envC normFamily [3, 2])
    ∧ findSuitableTrace envC (envC.shape_into_2d [[1]]) (mkRat 1 100)
        ([] ++ normFamily :: [uniformFamily]) ⊤ = [] ++ [normFamily] :=
  ⟨rfl,
    (find_suitable_early_exit envC [[1]] (mkRat 1 100) [] [uniformFamily] normFamily [3, 2]
      rfl (fun f hf => absurd hf (List.not_mem_nil f)) rfl (by decide) (by decide)).1,
    (find_suitable_early_exit envC [[1]] (mkRat 1 100) [] [uniformFamily] normFamily [3, 2]
      rfl (fun f hf => absurd hf (List.not_mem_nil f)) rfl (by decide) (by decide)).2
      [uniformFamily]⟩

/-- When no family can exit early and no family beats the incoming best
divergence, the loop returns its incoming best unchanged. -/
theorem findSuitableLoop_keeps_best (env : Env) (X : Samples) (thr : ℚ) :
    ∀ (cs : List Family) (bF : Family) (bP : List ℚ) (bD : WithTop ℚ),
      (∀ f ∈ cs, ∀ ps, env.fitDist f X = some ps →
        2 ≤ ps.length ∧ thr ≤ famDiv env X f ps
          ∧ ¬((famDiv env X f ps : WithTop ℚ) < bD)) →
      findSuitableLoop env X thr cs bF bP bD = Except.ok (bF, bP) := by
  intro cs
  induction cs with
  | nil => intro bF bP bD _; rfl
  | cons g rest ih =>
    intro bF bP bD h
    simp only [findSuitableLoop]
    cases hgfit : env.fitDist g X with
    | none => exact ih bF bP bD (fun f hf => h f (List.mem_cons_of_mem g hf))
    | some ps =>
      obtain ⟨hl, hd, hnb⟩ := h g (List.mem_cons_self g rest) ps hgfit
      simp only [Nat.not_lt.mpr hl, if_false]
      rw [if_neg (not_lt.mpr hd), if_neg hnb]
      exact ih bF bP bD (fun f hf => h f (List.mem_cons_of_mem g hf))

/-- When some catalog family fits with a strictly smaller divergence than
every other fitting family (all at or above the threshold, so no early exit),
the loop ends on that family and its raw parameters. -/
theorem findSuitableLoop_unique_min (env : Env) (X : Samples) (thr : ℚ)
    (f₀ : Family) (ps₀ : List ℚ)
    (hfit : env.fitDist f₀ X = some ps₀) :
    ∀ (cs : List Family),
      (∀ f ∈ cs, ∀ ps, env.fitDist f X = some ps →
        2 ≤ ps.length ∧ thr ≤ famDiv env X f ps) →
      (∀ f ∈ cs, ∀ ps, env.fitDist f X = some ps → f ≠ f₀ →
        famDiv env X f₀ ps₀ < famDiv env X f ps) →
      f₀ ∈ cs →
      ∀ (bF : Family) (bP : List ℚ) (bD : WithTop ℚ),
        ((famDiv env X f₀ ps₀ : ℚ) : WithTop ℚ) < bD →
        findSuitableLoop env X thr cs bF bP bD = Except.ok (f₀, ps₀) := by
  intro cs
  induction cs with
  | nil => intro _ _ hmem; exact absurd hmem (List.not_mem_nil f₀)
  | cons g rest ih =>
    intro hall hmin hmem bF bP bD hbD
    have hall2 : ∀ f ∈ rest, ∀ ps, env.fitDist f X = some ps →
        2 ≤ ps.length ∧ thr ≤ famDiv env X f ps :=
      fun f hf => hall f (List.mem_cons_of_mem g hf)
    have hmin2 : ∀ f ∈ rest, ∀ ps, env.fitDist f X = some ps → f ≠ f₀ →
        famDiv env X f₀ ps₀ < famDiv env X f ps :=
      fun f hf => hmin f (List.mem_cons_of_mem g hf)
    by_cases hg : g = f₀
    · subst hg
      obtain ⟨hl, hd⟩ := hall g (List.mem_cons_self g rest) ps₀ hfit
      simp only [findSuitableLoop]
      rw [hfit]
      simp only [Nat.not_lt.mpr hl, if_false]
      rw [if_neg (not_lt.mpr hd), if_pos hbD]
      apply findSuitableLoop_keeps_best
      intro f hf ps hps
      obtain ⟨hl2, hd2⟩ := hall2 f hf ps hps
      refine ⟨hl2, hd2, ?_⟩
      by_cases hff : f = g
      · subst hff
        rw [hps] at hfit
        injection hfit with hpe
        rw [hpe]
        exact lt_irrefl _
      · have hlt := hmin2 f hf ps hps hff
        exact not_lt.mpr (le_of_lt (WithTop.coe_lt_coe.mpr hlt))
    · have hmem2 : f₀ ∈ rest := by
        rcases List.mem_cons.mp hmem with h1 | h1
        · exact absurd h1.symm hg
        · exact h1
      simp only [findSuitableLoop]
      cases hgfit : env.fitDist g X with
      | none => exact ih hall2 hmin2 hmem2 bF bP bD hbD
      | some ps =>
        obtain ⟨hl, hd⟩ := hall g (List.mem_cons_self g rest) ps hgfit
        simp only [Nat.not_lt.mpr hl, if_false]
        rw [if_neg (not_lt.mpr hd)]
        by_cases hcase : (famDiv env X g ps : WithTop ℚ) < bD
        · rw [if_pos hcase]
          have hlt := hmin g (List.mem_cons_self g rest) ps hgfit hg
          exact ih hall2 hmin2 hmem2 g ps _ (WithTop.coe_lt_coe.mpr hlt)
        · rw [if_neg hcase]
          exact ih hall2 hmin2 hmem2 bF bP bD hbD

/-- C5: when no catalog family reaches a divergence below the threshold, the
search returns the fitting family with the strictly smallest divergence
(paired with its fitted parameters mapped to names); and when every catalog
fit fails, it returns the initial best: the `norm` family with parameters
`loc=0, scale=1`. -/
theorem find_suitable_best_of_catalog (env : Env) (X : Samples) (thr : ℚ) :
    (∀ (f₀ : Family) (ps₀ : List ℚ), f₀ ∈ env.continuous →
      env.fitDist f₀ (env.shape_into_2d X) = some ps₀ →
      (∀ f ∈ env.continuous, ∀ ps, env.fitDist f (env.shape_into_2d X) = some ps →
        2 ≤ ps.length ∧ thr ≤ famDiv env (env.shape_into_2d X) f ps) →
      (∀ f ∈ env.continuous, ∀ ps, env.fitDist f (env.shape_into_2d X) = some ps →
        f ≠ f₀ →
        famDiv env (env.shape_into_2d X) f₀ ps₀ < famDiv env (env.shape_into_2d X) f ps) →
      ScipyDistribution.find_suitable_continuous_distribution env X thr
        = Except.map (fun nm => (f₀, nm))
            (ScipyDistribution.map_scipy_distribution_parameters_to_names env f₀ ps₀))
    ∧ ((∀ f ∈ env.continuous, env.fitDist f (env.shape_into_2d X) = none) →
      normFamily.name ∉ env.discrete.map Family.name →
      normFamily.name ∈ env.continuous.map Family.name →
      ScipyDistribution.find_suitable_continuous_distribution env X thr
        = Except.ok (normFamily, [("loc", 0), ("scale", 1)])) := by
  constructor
  · intro f₀ ps₀ hmem hfit hall hmin
    unfold ScipyDistribution.find_suitable_continuous_distribution
    rw [findSuitableLoop_unique_min env (env.shape_into_2d X) thr f₀ ps₀ hfit env.continuous
      hall hmin hmem normFamily [0, 1] ⊤ (WithTop.coe_lt_top _)]
    dsimp only
    cases ScipyDistribution.map_scipy_distribution_parameters_to_names env f₀ ps₀ with
    | error e => rfl
    | ok named => rfl
  · intro hfail hnd hnc
    have hvac : ∀ f ∈ env.continuous, ∀ ps,
        env.fitDist f (env.shape_into_2d X) = some ps →
        2 ≤ ps.length ∧ thr ≤ famDiv env (env.shape_into_2d X) f ps
          ∧ ¬((famDiv env (env.shape_into_2d X) f ps : WithTop ℚ) < ⊤) := by
      intro f hf ps hps
      rw [hfail f hf] at hps
      cases hps
    unfold ScipyDistribution.find_suitable_continuous_distribution
    rw [findSuitableLoop_keeps_best env (env.shape_into_2d X) thr env.continuous
      normFamily [0, 1] ⊤ hvac]
    dsimp only
    unfold ScipyDistribution.map_scipy_distribution_parameters_to_names
    rw [if_neg hnd, if_pos hnc]
    rfl

/-- Witness for the C5 theorem: in `envB` both families fit above the
threshold with divergences 5 (`norm`) and 7 (`uniform`), so `norm` wins; in
`envD` every fit fails and the search falls back to `norm` with
`loc=0, scale=1`. -/
theorem find_suitable_best_of_catalog_witness :
    ScipyDistribution.find_suitable_continuous_distribution envB [[1]] (mkRat 1 100)
      = Except.map (fun nm => (normFamily, nm))
          (ScipyDistribution.map_scipy_distribution_parameters_to_names envB normFamily [3, 2])
    ∧ ScipyDistribution.find_suitable_continuous_distribution envD [[1]] (mkRat 1 100)
      = Except.ok (normFamily, [("loc", 0), ("scale", 1)]) := by
  constructor
  · apply (find_suitable_best_of_catalog envB [[1]] (mkRat 1 100)).1 normFamily [3, 2]
    · simp [envB, envA]
    · rfl
    · intro f hf ps hps
      rcases List.mem_cons.mp hf with h | h
      · subst h
        simp [envB, envA, normFamily] at hps
        subst hps
        exact ⟨by decide, by decide⟩
      · rcases List.mem_cons.mp h with h2 | h2
        · subst h2
          simp [envB, envA, uniformFamily] at hps
          subst hps
          exact ⟨by decide, by decide⟩
        · exact absurd h2 (List.not_mem_nil f)
    · intro f hf ps hps hne
      rcases List.mem_cons.mp hf with h | h
      · exact absurd h hne
      · rcases List.mem_cons.mp h with h2 | h2
        · subst h2
          simp [envB, envA, uniformFamily] at hps
          subst hps
          decide
        · exact absurd h2 (List.not_mem_nil f)
  · apply (find_suitable_best_of_catalog envD [[1]] (mkRat 1 100)).2
    · intro f _; rfl
    · simp [envD, envA]
    · simp [envD, envA, normFamily]

/-- Building the parameter dictionary over pairwise distinct names appends
each name-value pair in order: the dictionary is the positional zip. -/
theorem buildDictGo_nodup_keys (ns : List String) :
    ∀ (acc : List (String × ℚ)) (vs : List ℚ),
      (acc.map Prod.fst ++ ns).Nodup → ns.length ≤ vs.length →
      buildDictGo acc ns vs = Except.ok (acc ++ ns.zip vs) := by
  induction ns with
  | nil => intro acc vs _ _; simp [buildDictGo]
  | cons n ns ih =>
    intro acc vs hnd hlen
    cases vs with
    | nil => simp at hlen
    | cons v vs =>
      have hdisj : (acc.map Prod.fst).Disjoint (n :: ns) :=
        (List.nodup_append.mp hnd).2.2
      have hnotin : n ∉ acc.map Prod.fst := by
        intro hmem
        exact hdisj hmem (List.mem_cons_self n ns)
      have hins : pyDictInsert acc n v = acc ++ [(n, v)] := by
        unfold pyDictInsert
        rw [if_neg]
        intro hany
        rcases List.any_eq_true.mp hany with ⟨p, hp, hpe⟩
        exact hnotin (by
          rcases List.mem_map.mpr ⟨p, hp, of_decide_eq_true hpe⟩ with h
          exact h)
      have hnd2 : ((acc ++ [(n, v)]).map Prod.fst ++ ns).Nodup := by
        rw [List.map_append]
        simpa [List.append_assoc] using hnd
      have hlen2 : ns.length ≤ vs.length := by simpa using hlen
      calc buildDictGo acc (n :: ns) (v :: vs)
          = buildDictGo (acc ++ [(n, v)]) ns vs := by rw [buildDictGo, hins]
        _ = Except.ok ((acc ++ [(n, v)]) ++ ns.zip vs) := ih (acc ++ [(n, v)]) vs hnd2 hlen2
        _ = Except.ok (acc ++ (n, v) :: ns.zip vs) := by rw [List.append_assoc]; rfl

/-- C6: for a family registered in either catalog and a raw parameter tuple of
matching length, the parameter dictionary maps exactly the declared shape
names followed by `loc` (discrete family) or `loc, scale` (continuous family)
to the tuple entries, in that order — its key list equals that name list.
(The pairwise-distinct-names hypothesis holds for every real scipy family;
the source checks the discrete catalog first, which `trailingNames` mirrors.) -/
theorem map_parameters_keys (env : Env) (f : Family) (ps : List ℚ)
    (hmem : f.name ∈ env.discrete.map Family.name
      ∨ f.name ∈ env.continuous.map Family.name)
    (hnd : (declaredShapeNames f ++ trailingNames env f).Nodup)
    (hlen : ps.length = (declaredShapeNames f ++ trailingNames env f).length) :
    ScipyDistribution.map_scipy_distribution_parameters_to_names env f ps
      = Except.ok ((declaredShapeNames f ++ trailingNames env f).zip ps)
    ∧ ((declaredShapeNames f ++ trailingNames env f).zip ps).map Prod.fst
      = declaredShapeNames f ++ trailingNames env f := by
  have hlen2 : (declaredShapeNames f ++ trailingNames env f).length ≤ ps.length :=
    le_of_eq hlen.symm
  constructor
  · unfold ScipyDistribution.map_scipy_distribution_parameters_to_names
    by_cases hd : f.name ∈ env.discrete.map Family.name
    · have ht : trailingNames env f = ["loc"] := by
        unfold trailingNames
        rw [if_pos hd]
      rw [ht] at hnd hlen2
      rw [if_pos hd, ht]
      have h := buildDictGo_nodup_keys (declaredShapeNames f ++ ["loc"]) [] ps
        (by simpa using hnd) hlen2
      simpa using h
    · rcases hmem with hmem | hmem
      · exact absurd hmem hd
      have ht : trailingNames env f = ["loc", "scale"] := by
        unfold trailingNames
        rw [if_neg hd]
      rw [ht] at hnd hlen2
      rw [if_neg hd, if_pos hmem, ht]
      have h := buildDictGo_nodup_keys (declaredShapeNames f ++ ["loc", "scale"]) [] ps
        (by simpa using hnd) hlen2
      simpa using h
  · exact List.map_fst_zip _ _ hlen2

/-- Witness for the C6 theorem: the discrete family `poisson` gets keys
`[loc]` and the continuous family `norm` gets keys `[loc, scale]`, zipped
positionally with the raw tuples. -/
theorem map_parameters_keys_witness :
    ScipyDistribution.map_scipy_distribution_parameters_to_names envF poissonFamily [4]
      = Except.ok ((declaredShapeNames poissonFamily
          ++ trailingNames envF poissonFamily).zip [4])
    ∧ ScipyDistribution.map_scipy_distribution_parameters_to_names envF normFamily [0, 1]
      = Except.ok ((declaredShapeNames normFamily
          ++ trailingNames envF normFamily).zip [0, 1]) :=
  ⟨(map_parameters_keys envF poissonFamily [4]
      (Or.inl (by simp [envF, envA, poissonFamily]))
      (by simp [declaredShapeNames, trailingNames, envF, envA, poissonFamily])
      (by simp [declaredShapeNames, trailingNames, envF, envA, poissonFamily])).1,
    (map_parameters_keys envF normFamily [0, 1]
      (Or.inr (by simp [envF, envA, normFamily]))
      (by simp [declaredShapeNames, trailingNames, envF, envA, normFamily, poissonFamily])
      (by simp [declaredShapeNames, trailingNames, envF, envA, normFamily, poissonFamily])).1⟩
